import Mathlib

/-!
Formal model of the job-search multi-agent system's orchestration core:
the Strategy agent's bounded ReAct loop, the Market Intelligence job-ranking
merge, the orchestrator workflows with their session store, the Analytics
KPI computation and status updates, and the session-context merge semantics.
Each definition is a shallow embedding of the corresponding Python function;
theorems settle the specification claims about them.
-/

namespace JobSearchMAS

/-! ### Python dict primitives (insertion-ordered association lists)

Python dicts preserve insertion order; assignment overwrites in place when the
key exists and appends otherwise. These model the dict operations used by
`redis_memory.py` and `market_intelligence_agent.py`. -/

/-- Python dict assignment `d[k] = v`: overwrite in place when the key exists
(a dict never holds a key twice), otherwise append at the end. -/
def pyInsert {V : Type} : List (String × V) → String → V → List (String × V)
  | [], k, v => [(k, v)]
  | p :: rest, k, v =>
    if p.1 == k then (k, v) :: rest else p :: pyInsert rest k v

/-- Python dict lookup `d.get(k)`: the value at the first (unique) entry whose
key equals `k`, if any. -/
def pyGet {V : Type} (d : List (String × V)) (k : String) : Option V :=
  (d.find? (fun p => p.1 == k)).map (fun p => p.2)

/-- Python `d.update(u)`: write every key of `u` into `d`, in order. -/
def pyUpdate {V : Type} (d u : List (String × V)) : List (String × V) :=
  u.foldl (fun acc p => pyInsert acc p.1 p.2) d

/-! ### Strategy agent: the ReAct loop
(`src/agents/strategy_agent.py`, `StrategyAgent.process`, lines 43-111) -/

/-- Strategy object as produced by `_generate_strategy` (a dict with the
fields requested from the model, plus `strategy_id` and `user_id`). -/
structure Strat where
  strategy_id : String
  user_id : String
  objectives : List String
  target_positions : List String
  target_companies : List String
  priority_skills : List String
  timeline : String
  deriving DecidableEq, Repr

/-- Completeness test of the loop's OBSERVE step:
`strategy.get("target_positions") and strategy.get("objectives")`
(both lists non-empty). -/
def stratComplete (s : Strat) : Bool :=
  !s.target_positions.isEmpty && !s.objectives.isEmpty

/-- Local state of the ReAct while-loop: the `iteration` counter, the local
variable `strategy` (`none` while the Python local is unbound), and how many
times `_generate_strategy` has been invoked so far. -/
structure ReactState where
  iteration : Nat
  strategy : Option Strat
  genCalls : Nat
  deriving DecidableEq, Repr

/-- One pass of the while-loop body; `gen n` is the strategy returned by the
(n+1)-st `_generate_strategy` invocation. Returns the new state and whether
the body executed `break`. Iteration 1 parses the resume (no effect on the
strategy variable; a parse failure returns from the whole call before any
strategy is generated and is outside this loop model). Iteration 2 generates
a strategy and breaks only when it is complete. Iteration 3 re-generates only
when the local variable `strategy` is unbound, then breaks unconditionally. -/
def reactStep (gen : Nat → Strat) (st : ReactState) : ReactState × Bool :=
  let it := st.iteration + 1
  if it = 2 then
    let s := gen st.genCalls
    let st1 := ReactState.mk it (some s) (st.genCalls + 1)
    if stratComplete s then (st1, true) else (st1, false)
  else if it = 3 then
    match st.strategy with
    | some _ => (ReactState.mk it st.strategy st.genCalls, true)
    | none =>
      let s := gen st.genCalls
      (ReactState.mk it (some s) (st.genCalls + 1), true)
  else (ReactState.mk it st.strategy st.genCalls, false)

/-- The `while iteration < max_iterations` loop with `fuel` remaining passes
(`max_iterations = 3`). -/
def reactRun (gen : Nat → Strat) : Nat → ReactState → ReactState
  | 0, st => st
  | fuel + 1, st =>
    if st.iteration < 3 then
      let p := reactStep gen st
      if p.2 then p.1 else reactRun gen fuel p.1
    else st

/-- Outcome of `StrategyAgent.process` after a successful parse: the final
strategy, the reported `react_iterations`, and the total number of
`_generate_strategy` invocations made. -/
structure ReactOutcome where
  strategy : Option Strat
  react_iterations : Nat
  genCalls : Nat
  deriving DecidableEq, Repr

/-- The ReAct loop of `StrategyAgent.process`, parametrised by the strategy
generator (the language-model call). -/
def strategyReact (gen : Nat → Strat) : ReactOutcome :=
  let st := reactRun gen 3 (ReactState.mk 0 none 0)
  ReactOutcome.mk st.strategy st.iteration st.genCalls

/-- Incomplete strategy (empty target_positions and objectives), as returned
by a mocked model call. -/
def stratIncomplete : Strat := ⟨"strategy_u1", "u1", [], [], [], [], "3-6 months"⟩

/-- Complete strategy, as a second, different mocked model output. -/
def stratCompleteEx : Strat :=
  ⟨"strategy_u1", "u1", ["Find suitable position"], ["Software Developer"], [], [],
   "3-6 months"⟩

/-- Generator whose first invocation yields an incomplete strategy and whose
second invocation would yield a complete, different one. -/
def genFlaky : Nat → Strat := fun n => if n = 0 then stratIncomplete else stratCompleteEx

/-- C1: the claim as stated is false on the code. With a generator whose
iteration-2 output is incomplete, the loop reaches iteration 3 but, because
the local variable `strategy` is already bound there, it performs NO second
`_generate_strategy` invocation: the final strategy is iteration 2's
incomplete output (one generator call in total), not the output of a
re-invocation. -/
theorem C1_counterexample :
    stratComplete (genFlaky 0) = false ∧
    strategyReact genFlaky = ReactOutcome.mk (some stratIncomplete) 3 1 ∧
    ¬((strategyReact genFlaky).genCalls = 2 ∧
      (strategyReact genFlaky).strategy = some (genFlaky 1)) := by
  decide

/-- C1 (amended): if the strategy generated at iteration 2 is incomplete,
iteration 3 is reached and `react_iterations = 3`, but strategy generation is
NOT re-invoked (the local `strategy` variable is already bound, so the
fallback re-generation is dead code): iteration 2's incomplete strategy is
accepted as final after exactly one generator invocation. Iteration 3 is
never reached when iteration 2's strategy was complete: the loop breaks with
`react_iterations = 2` and the same single invocation. -/
theorem C1_react_fallback (gen : Nat → Strat) :
    (stratComplete (gen 0) = false →
      strategyReact gen = ReactOutcome.mk (some (gen 0)) 3 1) ∧
    (stratComplete (gen 0) = true →
      strategyReact gen = ReactOutcome.mk (some (gen 0)) 2 1) := by
  constructor <;> intro h <;> simp [strategyReact, reactRun, reactStep, h]

/-- C1 witness: the amended theorem applied to the concrete flaky generator. -/
theorem C1_react_fallback_witness :
    stratComplete (genFlaky 0) = false ∧
    strategyReact genFlaky = ReactOutcome.mk (some (genFlaky 0)) 3 1 :=
  ⟨by decide, (C1_react_fallback genFlaky).1 (by decide)⟩

/-! ### Analytics agent: KPI calculation
(`src/agents/analytics_agent.py`, `AnalyticsAgent._calculate_kpis`) -/

/-- KPI snapshot fields computed by `_calculate_kpis` (counts and the three
derived rates; the period bounds and average relevance are orthogonal to the
claims and omitted). -/
structure KPISnapshot where
  total_applications : Nat
  applications_viewed : Nat
  interviews_scheduled : Nat
  offers_received : Nat
  click_through_rate : ℚ
  interview_rate : ℚ
  offer_rate : ℚ
  deriving DecidableEq, Repr

/-- The KPI computation over the status strings of the user's applications
from the queried period: counts by status membership, and each rate as
`count / total * 100` when `total > 0` and `0.0` otherwise. -/
def calculateKpis (statuses : List String) : KPISnapshot :=
  let total := statuses.length
  let viewed := statuses.countP
    (fun s => s == "viewed" || s == "interview" || s == "accepted")
  let interviews := statuses.countP (fun s => s == "interview" || s == "accepted")
  let offers := statuses.countP (fun s => s == "accepted")
  let ctr : ℚ := if total > 0 then (viewed : ℚ) / (total : ℚ) * 100 else 0
  let irate : ℚ := if total > 0 then (interviews : ℚ) / (total : ℚ) * 100 else 0
  let orate : ℚ := if total > 0 then (offers : ℚ) / (total : ℚ) * 100 else 0
  ⟨total, viewed, interviews, offers, ctr, irate, orate⟩

/-- Helper bound: a rate of the form `count/total*100` with `count ≤ total`
lies in `[0, 100]`, and the `total = 0` guard makes it `0`. -/
theorem rate_bounds (count total : Nat) (h : count ≤ total) :
    0 ≤ (if total > 0 then (count : ℚ) / (total : ℚ) * 100 else 0) ∧
    (if total > 0 then (count : ℚ) / (total : ℚ) * 100 else 0) ≤ 100 := by
  split
  · rename_i hpos
    have htot : (0 : ℚ) < (total : ℚ) := by exact_mod_cast hpos
    constructor
    · positivity
    · have hdiv : (count : ℚ) / (total : ℚ) ≤ 1 := by
        rw [div_le_one htot]
        exact_mod_cast h
      calc (count : ℚ) / (total : ℚ) * 100 ≤ 1 * 100 := by
            exact mul_le_mul_of_nonneg_right hdiv (by norm_num)
        _ = 100 := by norm_num
  · exact ⟨le_refl 0, by norm_num⟩

/-- C8: each of the three KPI rates is `count/total*100` when there are
applications and `0.0` when there are none, and every rate lies in `[0,100]`
for every input application set (no division by zero can occur: the division
is guarded by `total > 0`). -/
theorem C8_kpi_rates (statuses : List String) :
    (0 ≤ (calculateKpis statuses).click_through_rate ∧
      (calculateKpis statuses).click_through_rate ≤ 100) ∧
    (0 ≤ (calculateKpis statuses).interview_rate ∧
      (calculateKpis statuses).interview_rate ≤ 100) ∧
    (0 ≤ (calculateKpis statuses).offer_rate ∧
      (calculateKpis statuses).offer_rate ≤ 100) ∧
    ((calculateKpis statuses).total_applications = 0 →
      (calculateKpis statuses).click_through_rate = 0 ∧
      (calculateKpis statuses).interview_rate = 0 ∧
      (calculateKpis statuses).offer_rate = 0) ∧
    (0 < (calculateKpis statuses).total_applications →
      (calculateKpis statuses).click_through_rate =
        ((calculateKpis statuses).applications_viewed : ℚ) /
          ((calculateKpis statuses).total_applications : ℚ) * 100 ∧
      (calculateKpis statuses).interview_rate =
        ((calculateKpis statuses).interviews_scheduled : ℚ) /
          ((calculateKpis statuses).total_applications : ℚ) * 100 ∧
      (calculateKpis statuses).offer_rate =
        ((calculateKpis statuses).offers_received : ℚ) /
          ((calculateKpis statuses).total_applications : ℚ) * 100) := by
  have hv : statuses.countP
      (fun s => s == "viewed" || s == "interview" || s == "accepted") ≤
      statuses.length := List.countP_le_length _
  have hi : statuses.countP (fun s => s == "interview" || s == "accepted") ≤
      statuses.length := List.countP_le_length _
  have ho : statuses.countP (fun s => s == "accepted") ≤ statuses.length :=
    List.countP_le_length _
  refine ⟨rate_bounds _ _ hv, rate_bounds _ _ hi, rate_bounds _ _ ho, ?_, ?_⟩
  · intro h
    simp only [calculateKpis] at h ⊢
    simp [h]
  · intro h
    simp only [calculateKpis] at h ⊢
    simp [h]

/-- C8 witness: the zero-total case discharged on the empty list and the
positive-total case on a concrete two-application set. -/
theorem C8_kpi_rates_witness :
    ((calculateKpis []).click_through_rate = 0 ∧
      (calculateKpis []).interview_rate = 0 ∧
      (calculateKpis []).offer_rate = 0) ∧
    ((calculateKpis ["viewed", "draft"]).click_through_rate =
        ((calculateKpis ["viewed", "draft"]).applications_viewed : ℚ) /
          ((calculateKpis ["viewed", "draft"]).total_applications : ℚ) * 100 ∧
      (calculateKpis ["viewed", "draft"]).interview_rate =
        ((calculateKpis ["viewed", "draft"]).interviews_scheduled : ℚ) /
          ((calculateKpis ["viewed", "draft"]).total_applications : ℚ) * 100 ∧
      (calculateKpis ["viewed", "draft"]).offer_rate =
        ((calculateKpis ["viewed", "draft"]).offers_received : ℚ) /
          ((calculateKpis ["viewed", "draft"]).total_applications : ℚ) * 100) :=
  ⟨(C8_kpi_rates []).2.2.2.1 (by decide),
   (C8_kpi_rates ["viewed", "draft"]).2.2.2.2 (by decide)⟩

/-! ### Analytics agent: application status update
(`src/agents/analytics_agent.py`, `AnalyticsAgent._update_application_status`) -/

/-- Application row fields touched by the status-update operation; timestamps
are abstract instants (`Nat`), `none` meaning the NULL a fresh row carries. -/
structure ApplicationRow where
  application_id : String
  status : String
  viewed_at : Option Nat
  interview_at : Option Nat
  updated_at : Nat
  deriving DecidableEq, Repr

/-- The values of the ApplicationStatus enum, used as the validity check. -/
def validStatuses : List String :=
  ["draft", "submitted", "viewed", "interview", "rejected", "accepted"]

/-- The status-update operation on an application row that was found, at
instant `now`: invalid statuses are rejected (`none`, the error return);
otherwise the status and `updated_at` are overwritten, and `viewed_at`
(resp. `interview_at`) is set to `now` only when the new status is `viewed`
(resp. `interview`) and the timestamp is still unset. -/
def updateApplicationStatus (app : ApplicationRow) (new_status : String)
    (now : Nat) : Option ApplicationRow :=
  if new_status ∈ validStatuses then
    let app1 := { app with status := new_status, updated_at := now }
    let app2 :=
      if new_status = "viewed" ∧ app1.viewed_at = none then
        { app1 with viewed_at := some now }
      else if new_status = "interview" ∧ app1.interview_at = none then
        { app1 with interview_at := some now }
      else app1
    some app2
  else none

/-- C9: the transition sequence draft→viewed→viewed sets `viewed_at` exactly
once: the first transition to `viewed` stamps the current instant, and the
second transition to `viewed` succeeds but leaves the already-set timestamp
unchanged. More generally, re-updating to `viewed` never overwrites an
existing `viewed_at`. -/
theorem C9_viewed_timestamp_once (app : ApplicationRow) (t1 t2 : Nat)
    (h : app.viewed_at = none) :
    ((updateApplicationStatus app "viewed" t1).map ApplicationRow.viewed_at =
      some (some t1)) ∧
    (((updateApplicationStatus app "viewed" t1).bind
        (fun a => updateApplicationStatus a "viewed" t2)).map
          ApplicationRow.viewed_at = some (some t1)) ∧
    (∀ b t, b.viewed_at = some t →
      (updateApplicationStatus b "viewed" t2).map ApplicationRow.viewed_at =
        some (some t)) := by
  refine ⟨?_, ?_, ?_⟩
  · simp [updateApplicationStatus, validStatuses, h]
  · simp [updateApplicationStatus, validStatuses, h]
  · intro b t hb
    simp [updateApplicationStatus, validStatuses, hb]

/-- C9 witness: a concrete draft application run through draft→viewed→viewed. -/
theorem C9_viewed_timestamp_once_witness :
    (ApplicationRow.mk "app_u1_j1" "draft" none none 0).viewed_at = none ∧
    (((updateApplicationStatus
        (ApplicationRow.mk "app_u1_j1" "draft" none none 0) "viewed" 5).bind
          (fun a => updateApplicationStatus a "viewed" 9)).map
            ApplicationRow.viewed_at = some (some 5)) :=
  ⟨rfl, (C9_viewed_timestamp_once
    (ApplicationRow.mk "app_u1_j1" "draft" none none 0) 5 9 rfl).2.1⟩

/-! ### Dict lemmas -/

/-- Lookup at a cons whose head carries the key. -/
theorem pyGet_cons_of_eq {V : Type} (p : String × V) (rest : List (String × V))
    (k : String) (h : p.1 = k) : pyGet (p :: rest) k = some p.2 := by
  unfold pyGet
  rw [List.find?_cons_of_pos _ (by simp [h])]
  rfl

/-- Lookup at a cons whose head carries a different key. -/
theorem pyGet_cons_of_ne {V : Type} (p : String × V) (rest : List (String × V))
    (k : String) (h : ¬p.1 = k) : pyGet (p :: rest) k = pyGet rest k := by
  unfold pyGet
  rw [List.find?_cons_of_neg _ (by simp [h])]

/-- Assignment at a cons whose head carries the key. -/
theorem pyInsert_cons_of_eq {V : Type} (p : String × V)
    (rest : List (String × V)) (k : String) (v : V) (h : p.1 = k) :
    pyInsert (p :: rest) k v = (k, v) :: rest := by
  unfold pyInsert
  rw [if_pos (by simp [h])]

/-- Assignment at a cons whose head carries a different key. -/
theorem pyInsert_cons_of_ne {V : Type} (p : String × V)
    (rest : List (String × V)) (k : String) (v : V) (h : ¬p.1 = k) :
    pyInsert (p :: rest) k v = p :: pyInsert rest k v := by
  have hdef : pyInsert (p :: rest) k v =
      if p.1 == k then (k, v) :: rest else p :: pyInsert rest k v := rfl
  rw [hdef, if_neg (by simp [h])]

/-- Looking up after an assignment: the assigned key now yields the new value,
every other key is untouched. -/
theorem pyGet_pyInsert {V : Type} (d : List (String × V)) (k k2 : String)
    (v : V) :
    pyGet (pyInsert d k v) k2 = if k2 = k then some v else pyGet d k2 := by
  induction d with
  | nil =>
    by_cases h : k2 = k
    · subst h
      rw [if_pos rfl]
      exact pyGet_cons_of_eq _ _ _ rfl
    · rw [if_neg h]
      exact pyGet_cons_of_ne _ _ _ (fun hc => h hc.symm)
  | cons p rest ih =>
    by_cases hk : p.1 = k
    · rw [pyInsert_cons_of_eq _ _ _ _ hk]
      by_cases h : k2 = k
      · subst h
        rw [pyGet_cons_of_eq _ _ _ rfl, if_pos rfl]
      · rw [pyGet_cons_of_ne _ _ _ (fun hc => h hc.symm), if_neg h,
          pyGet_cons_of_ne _ _ _ (fun hc => h (hc.symm.trans hk))]
    · rw [pyInsert_cons_of_ne _ _ _ _ hk]
      by_cases h2 : p.1 = k2
      · have hne : ¬k2 = k := fun hc => hk (h2.trans hc)
        rw [pyGet_cons_of_eq _ _ _ h2, pyGet_cons_of_eq _ _ _ h2, if_neg hne]
      · rw [pyGet_cons_of_ne _ _ _ h2, pyGet_cons_of_ne _ _ _ h2, ih]

/-- Key membership after an assignment. -/
theorem mem_keys_pyInsert {V : Type} (d : List (String × V)) (k k2 : String)
    (v : V) :
    k2 ∈ (pyInsert d k v).map Prod.fst ↔ k2 ∈ d.map Prod.fst ∨ k2 = k := by
  induction d with
  | nil => simp [pyInsert]
  | cons p rest ih =>
    by_cases hk : p.1 = k
    · subst hk
      rw [pyInsert_cons_of_eq _ _ _ _ rfl]
      simp only [List.map_cons, List.mem_cons]
      tauto
    · rw [pyInsert_cons_of_ne _ _ _ _ hk]
      simp only [List.map_cons, List.mem_cons, ih]
      tauto

/-- Updating with a mapping leaves every key absent from it untouched. -/
theorem pyGet_pyUpdate_of_not_mem {V : Type} (u : List (String × V))
    (d : List (String × V)) (k : String) (h : k ∉ u.map Prod.fst) :
    pyGet (pyUpdate d u) k = pyGet d k := by
  induction u generalizing d with
  | nil => rfl
  | cons p u ih =>
    simp only [List.map_cons, List.mem_cons, not_or] at h
    have step : pyUpdate d (p :: u) = pyUpdate (pyInsert d p.1 p.2) u := rfl
    rw [step, ih _ (fun hc => h.2 hc), pyGet_pyInsert, if_neg h.1]

/-- Key membership after an update is the union of the two key sets. -/
theorem mem_keys_pyUpdate {V : Type} (u : List (String × V))
    (d : List (String × V)) (k : String) :
    k ∈ (pyUpdate d u).map Prod.fst ↔ k ∈ d.map Prod.fst ∨ k ∈ u.map Prod.fst := by
  induction u generalizing d with
  | nil => simp [pyUpdate]
  | cons p u ih =>
    have step : pyUpdate d (p :: u) = pyUpdate (pyInsert d p.1 p.2) u := rfl
    rw [step, ih, mem_keys_pyInsert]
    simp only [List.map_cons, List.mem_cons]
    tauto

/-! ### Session store (`src/memory/redis_memory.py`)

Session contexts are dicts keyed by field name; the store maps the key
`session:{sid}` to the serialised context. `update_session_context` reads the
current context (an empty dict when the session does not exist), merges the
update mapping into it with dict `update`, and writes the result back. -/

/-- Redis key for a session. -/
def sessionKey (sid : String) : String := "session:" ++ sid

/-- `set_session_context`: store the whole context under the session key
(full replacement). -/
def set_session_context {V : Type} (store : List (String × List (String × V)))
    (sid : String) (context : List (String × V)) :
    List (String × List (String × V)) :=
  pyInsert store (sessionKey sid) context

/-- `get_session_context`: read the context stored under the session key. -/
def get_session_context {V : Type} (store : List (String × List (String × V)))
    (sid : String) : Option (List (String × V)) :=
  pyGet store (sessionKey sid)

/-- `update_session_context`: read-merge-write. -/
def update_session_context {V : Type}
    (store : List (String × List (String × V))) (sid : String)
    (updates : List (String × V)) : List (String × List (String × V)) :=
  set_session_context store sid
    (pyUpdate ((get_session_context store sid).getD []) updates)

/-- C10: the store's context update is a merge, not a replacement. After
`update_session_context` the stored context is the old context with the
update mapping merged in; every key absent from the update mapping keeps its
previous value; and updating a non-existent session creates a context whose
keys are exactly the update's keys. -/
theorem C10_update_is_merge {V : Type}
    (store : List (String × List (String × V))) (sid : String)
    (upd : List (String × V)) (k : String) :
    get_session_context (update_session_context store sid upd) sid =
      some (pyUpdate ((get_session_context store sid).getD []) upd) ∧
    (k ∉ upd.map Prod.fst →
      pyGet (pyUpdate ((get_session_context store sid).getD []) upd) k =
        pyGet ((get_session_context store sid).getD []) k) ∧
    (get_session_context store sid = none →
      (k ∈ (pyUpdate ((get_session_context store sid).getD []) upd).map Prod.fst
        ↔ k ∈ upd.map Prod.fst)) := by
  refine ⟨?_, ?_, ?_⟩
  · unfold update_session_context set_session_context get_session_context
    rw [pyGet_pyInsert, if_pos rfl]
  · intro h
    exact pyGet_pyUpdate_of_not_mem upd _ k h
  · intro h
    rw [h]
    simpa using mem_keys_pyUpdate upd [] k

/-- Concrete session context for the C10 witness: the fields a session holds
after `find_jobs` (values are opaque strings standing for the JSON payloads). -/
def ctxC10 : List (String × String) :=
  [("user_id", "u1"), ("task_type", "find_jobs"), ("agent_trace", "[...]"),
   ("job_matches", "[jobs]")]

/-- Concrete update for the C10 witness: an agent writing only profile and
strategy. -/
def updC10 : List (String × String) :=
  [("profile", "prof"), ("strategy", "strat")]

/-- Concrete store for the C10 witness. -/
def storeC10 : List (String × List (String × String)) :=
  [(sessionKey "s1", ctxC10)]

/-- C10 witness: on the concrete store, the keys the update does not mention
(here `agent_trace`) keep their value, and updating the fresh session `s2`
creates a context whose keys are exactly the update's keys. -/
theorem C10_update_is_merge_witness :
    (pyGet (pyUpdate ((get_session_context storeC10 "s1").getD []) updC10)
        "agent_trace" =
      pyGet ((get_session_context storeC10 "s1").getD []) "agent_trace") ∧
    ("profile" ∈
        (pyUpdate ((get_session_context storeC10 "s2").getD []) updC10).map
          Prod.fst ↔ "profile" ∈ updC10.map Prod.fst) :=
  ⟨(C10_update_is_merge storeC10 "s1" updC10 "agent_trace").2.1 (by decide),
   (C10_update_is_merge storeC10 "s2" updC10 "profile").2.2 (by decide)⟩

/-! ### Market intelligence agent: job ranking merge
(`src/agents/market_intelligence_agent.py`, `MarketIntelligenceAgent._rank_jobs`) -/

/-- Job posting fields the ranking merge reads (the many remaining JobPosting
fields ride along unchanged and are irrelevant to the merge). -/
structure Job where
  job_id : String
  title : String
  company : String
  deriving DecidableEq, Repr

/-- One element of the ranking model's JSON response: a job id with an
optional relevance score (the code substitutes 0.5 when the key is absent)
and optional reasons/gaps. -/
structure RankingEntry where
  job_id : String
  relevance_score : Option ℚ
  match_reasons : List String
  gaps : List String
  deriving DecidableEq, Repr

/-- A JobMatch as assembled by the merge: a job with its relevance score. -/
structure RankedMatch where
  job : Job
  relevance_score : ℚ
  match_reasons : List String
  gaps : List String
  deriving DecidableEq, Repr

/-- The `job_dict` built by `job_dict[job.job_id] = job` over the whole input
job list. -/
def buildJobDict (jobs : List Job) : List (String × Job) :=
  jobs.foldl (fun d j => pyInsert d j.job_id j) []

/-- First merge phase: walk the model's rankings in order; every ranking whose
job_id is found in the dict appends a match carrying the model's score
(0.5 when the entry carries no score) and records the id in `ranked_job_ids`.
Returns the matches and the recorded ids. -/
def scoredMatches (d : List (String × Job)) :
    List RankingEntry → List RankedMatch × List String
  | [] => ([], [])
  | r :: rs =>
    match pyGet d r.job_id with
    | some j =>
      let rest := scoredMatches d rs
      (RankedMatch.mk j (r.relevance_score.getD (mkRat 1 2)) r.match_reasons r.gaps
          :: rest.1,
        r.job_id :: rest.2)
    | none => scoredMatches d rs

/-- Second merge phase: jobs in the dict that the model did not rank are
appended with the fixed default score 0.5 and empty reasons/gaps. -/
def defaultMatches (d : List (String × Job)) (rankedIds : List String) :
    List RankedMatch :=
  (d.filter (fun p => !(rankedIds.contains p.1))).map
    (fun p => RankedMatch.mk p.2 (mkRat 1 2) [] [])

/-- Descending comparison used by `sort(key=lambda x: x.relevance_score,
reverse=True)`. -/
def scoreGe (a b : RankedMatch) : Prop :=
  b.relevance_score ≤ a.relevance_score

instance : DecidableRel scoreGe := fun a b =>
  inferInstanceAs (Decidable (b.relevance_score ≤ a.relevance_score))

instance : IsTotal RankedMatch scoreGe :=
  ⟨fun a b => le_total b.relevance_score a.relevance_score⟩

instance : IsTrans RankedMatch scoreGe :=
  ⟨fun _ _ _ hab hbc => le_trans hbc hab⟩

/-- The `_rank_jobs` success path: build the dict from the whole job list,
merge model-scored matches with default-scored leftovers, and sort by
relevance score descending (a stable sort, like Python's). -/
def rankJobs (jobs : List Job) (rankings : List RankingEntry) :
    List RankedMatch :=
  let d := buildJobDict jobs
  let pr := scoredMatches d rankings
  (pr.1 ++ defaultMatches d pr.2).insertionSort scoreGe

/-! ### Ranking merge lemmas -/

/-- Assignment of an absent key appends the entry at the end. -/
theorem pyInsert_of_not_mem_keys {V : Type} (d : List (String × V)) (k : String)
    (v : V) (h : k ∉ d.map Prod.fst) : pyInsert d k v = d ++ [(k, v)] := by
  induction d with
  | nil => rfl
  | cons p rest ih =>
    simp only [List.map_cons, List.mem_cons, not_or] at h
    rw [pyInsert_cons_of_ne _ _ _ _ (fun hc => h.1 hc.symm), ih h.2]
    rfl

/-- Generalised accumulator form of the job-dict characterisation. -/
theorem buildJobDict_go (jobs : List Job) :
    ∀ acc : List (String × Job),
      (acc.map Prod.fst ++ jobs.map Job.job_id).Nodup →
      jobs.foldl (fun d j => pyInsert d j.job_id j) acc =
        acc ++ jobs.map (fun j => (j.job_id, j)) := by
  induction jobs with
  | nil => intro acc _; simp
  | cons j js ih =>
    intro acc hacc
    have hj : j.job_id ∉ acc.map Prod.fst := by
      intro hmem
      rcases List.nodup_append.mp (by simpa using hacc) with ⟨_, _, hdisj⟩
      exact hdisj hmem (List.mem_cons_self _ _)
    rw [List.foldl_cons, pyInsert_of_not_mem_keys _ _ _ hj]
    have hacc2 :
        ((acc ++ [(j.job_id, j)]).map Prod.fst ++ js.map Job.job_id).Nodup := by
      simpa [List.append_assoc] using hacc
    rw [ih (acc ++ [(j.job_id, j)]) hacc2]
    simp

/-- With duplicate-free ids, the job dict is just the input jobs keyed by
their ids, in input order. -/
theorem buildJobDict_eq (jobs : List Job) (hN : (jobs.map Job.job_id).Nodup) :
    buildJobDict jobs = jobs.map (fun j => (j.job_id, j)) := by
  simpa using buildJobDict_go jobs [] (by simpa using hN)

/-- A successful lookup returns an entry of the dict, keyed as looked up. -/
theorem pyGet_mem {V : Type} (d : List (String × V)) (k : String) (v : V)
    (h : pyGet d k = some v) : (k, v) ∈ d := by
  induction d with
  | nil => simp [pyGet] at h
  | cons p rest ih =>
    by_cases hk : p.1 = k
    · rw [pyGet_cons_of_eq _ _ _ hk] at h
      cases h
      subst hk
      exact List.mem_cons_self _ _
    · rw [pyGet_cons_of_ne _ _ _ hk] at h
      exact List.mem_cons_of_mem _ (ih h)

/-- A lookup succeeds exactly when the key is present. -/
theorem pyGet_isSome_iff {V : Type} (d : List (String × V)) (k : String) :
    (pyGet d k).isSome ↔ k ∈ d.map Prod.fst := by
  induction d with
  | nil => simp [pyGet]
  | cons p rest ih =>
    by_cases hk : p.1 = k
    · rw [pyGet_cons_of_eq _ _ _ hk]
      simp [hk]
    · rw [pyGet_cons_of_ne _ _ _ hk, ih]
      simp only [List.map_cons, List.mem_cons]
      constructor
      · exact Or.inr
      · rintro (h | h)
        · exact absurd h.symm hk
        · exact h

/-- The ids recorded by the scored phase are the rankings' ids found in the
dict, in ranking order. -/
theorem scoredMatches_ids (d : List (String × Job)) (rs : List RankingEntry) :
    (scoredMatches d rs).2 =
      (rs.filter (fun r => (pyGet d r.job_id).isSome)).map
        RankingEntry.job_id := by
  induction rs with
  | nil => rfl
  | cons r rs ih =>
    cases h : pyGet d r.job_id with
    | some j => simp [scoredMatches, h, ih, List.filter_cons]
    | none => simp [scoredMatches, h, ih, List.filter_cons]

/-- Scored matches carry exactly the recorded ids, in order. -/
theorem scoredMatches_map_ids (d : List (String × Job))
    (hWF : ∀ p ∈ d, (Prod.snd p).job_id = p.1) (rs : List RankingEntry) :
    (scoredMatches d rs).1.map (fun m => m.job.job_id) =
      (scoredMatches d rs).2 := by
  induction rs with
  | nil => rfl
  | cons r rs ih =>
    cases h : pyGet d r.job_id with
    | some j =>
      have hj : j.job_id = r.job_id := hWF _ (pyGet_mem _ _ _ h)
      simp [scoredMatches, h, ih, hj]
    | none => simp [scoredMatches, h, ih]

/-- Every scored match's job is a value of the dict. -/
theorem scoredMatches_job_mem (d : List (String × Job))
    (rs : List RankingEntry) :
    ∀ m ∈ (scoredMatches d rs).1, m.job ∈ d.map Prod.snd := by
  induction rs with
  | nil => intro m hm; simp [scoredMatches] at hm
  | cons r rs ih =>
    intro m hm
    cases h : pyGet d r.job_id with
    | some j =>
      rw [show scoredMatches d (r :: rs) =
          (RankedMatch.mk j (r.relevance_score.getD (mkRat 1 2))
              r.match_reasons r.gaps :: (scoredMatches d rs).1,
            r.job_id :: (scoredMatches d rs).2) by
        simp [scoredMatches, h]] at hm
      rcases List.mem_cons.mp hm with rfl | hm2
      · exact List.mem_map.mpr ⟨(r.job_id, j), pyGet_mem _ _ _ h, rfl⟩
      · exact ih m hm2
    | none =>
      rw [show scoredMatches d (r :: rs) = scoredMatches d rs by
        simp [scoredMatches, h]] at hm
      exact ih m hm

/-- Default matches carry the fixed 0.5 score and jobs from the dict. -/
theorem defaultMatches_mem (d : List (String × Job)) (ids : List String) :
    ∀ m ∈ defaultMatches d ids,
      m.relevance_score = mkRat 1 2 ∧ m.job ∈ d.map Prod.snd := by
  intro m hm
  unfold defaultMatches at hm
  rcases List.mem_map.mp hm with ⟨p, hp, rfl⟩
  exact ⟨rfl, List.mem_map.mpr ⟨p, List.mem_of_mem_filter hp, rfl⟩⟩

/-- Default matches carry exactly the unranked dict keys, in dict order. -/
theorem defaultMatches_map_ids (d : List (String × Job))
    (hWF : ∀ p ∈ d, (Prod.snd p).job_id = p.1) (ids : List String) :
    (defaultMatches d ids).map (fun m => m.job.job_id) =
      (d.filter (fun p => !(ids.contains p.1))).map Prod.fst := by
  unfold defaultMatches
  rw [List.map_map]
  exact List.map_congr_left (fun p hp => hWF p (List.mem_of_mem_filter hp))

/-- A duplicate-free selection followed by the unselected remainder of a
duplicate-free list permutes the whole list. -/
theorem perm_picked_append_filter (picked keys : List String)
    (hknd : keys.Nodup) (hpnd : picked.Nodup)
    (hsub : ∀ x ∈ picked, x ∈ keys) :
    (picked ++ keys.filter (fun k => !(picked.contains k))).Perm keys := by
  apply (List.perm_ext_iff_of_nodup ?_ hknd).mpr
  · intro a
    simp only [List.mem_append, List.mem_filter, List.contains,
      List.elem_eq_mem, Bool.not_eq_true', decide_eq_false_iff_not]
    constructor
    · rintro (h | ⟨h, _⟩)
      · exact hsub a h
      · exact h
    · intro h
      by_cases hp : a ∈ picked
      · exact Or.inl hp
      · exact Or.inr ⟨h, hp⟩
  · rw [List.nodup_append]
    refine ⟨hpnd, hknd.filter _, ?_⟩
    intro a ha hb
    have hnb := (List.mem_filter.mp hb).2
    simp only [List.contains, List.elem_eq_mem, Bool.not_eq_true',
      decide_eq_false_iff_not] at hnb
    exact hnb ha

/-- The ids of the merged (pre-sort) match list permute the input job ids. -/
theorem merged_ids_perm (jobs : List Job) (rankings : List RankingEntry)
    (hN : (jobs.map Job.job_id).Nodup)
    (hM : (rankings.map RankingEntry.job_id).Nodup) :
    (((scoredMatches (buildJobDict jobs) rankings).1 ++
        defaultMatches (buildJobDict jobs)
          (scoredMatches (buildJobDict jobs) rankings).2).map
            (fun m => m.job.job_id)).Perm (jobs.map Job.job_id) := by
  have hbd : buildJobDict jobs = jobs.map (fun j => (j.job_id, j)) :=
    buildJobDict_eq jobs hN
  have hkeys : (buildJobDict jobs).map Prod.fst = jobs.map Job.job_id := by
    rw [hbd, List.map_map]
    rfl
  have hWF : ∀ p ∈ buildJobDict jobs, (Prod.snd p).job_id = p.1 := by
    rw [hbd]
    intro p hp
    rcases List.mem_map.mp hp with ⟨j, _, rfl⟩
    rfl
  rw [List.map_append, scoredMatches_map_ids _ hWF, scoredMatches_ids,
    defaultMatches_map_ids _ hWF]
  rw [show (buildJobDict jobs).filter
        (fun p =>
          !((rankings.filter
              (fun r => (pyGet (buildJobDict jobs) r.job_id).isSome)).map
                RankingEntry.job_id).contains p.1) =
      (buildJobDict jobs).filter
        ((fun k =>
          !((rankings.filter
              (fun r => (pyGet (buildJobDict jobs) r.job_id).isSome)).map
                RankingEntry.job_id).contains k) ∘ Prod.fst) from rfl,
    ← List.filter_map, hkeys]
  apply perm_picked_append_filter
  · exact hN
  · exact hM.sublist ((List.filter_sublist _).map _)
  · intro x hx
    rcases List.mem_map.mp hx with ⟨r, hr, rfl⟩
    have hs := (List.mem_filter.mp hr).2
    rw [← hkeys]
    exact (pyGet_isSome_iff _ _).mp (by simpa using hs)

/-- C2: for a job list with distinct ids and a model response scoring a
duplicate-free subset of them (with schema-valid scores in [0,1]), the merged
ranked output has exactly the input's size, contains every input job exactly
once, is sorted by relevance score descending, and every job the model did
not score carries relevance score exactly 0.5. -/
theorem C2_rank_merge (jobs : List Job) (rankings : List RankingEntry)
    (hN : (jobs.map Job.job_id).Nodup)
    (hM : (rankings.map RankingEntry.job_id).Nodup)
    (hR : ∀ r ∈ rankings, ∀ q ∈ r.relevance_score, 0 ≤ q ∧ q ≤ 1) :
    (rankJobs jobs rankings).length = jobs.length ∧
    ((rankJobs jobs rankings).map (fun m => m.job.job_id)).Perm
      (jobs.map Job.job_id) ∧
    (∀ j ∈ jobs,
      (rankJobs jobs rankings).countP (fun m => m.job == j) = 1) ∧
    List.Pairwise scoreGe (rankJobs jobs rankings) ∧
    (∀ m ∈ rankJobs jobs rankings,
      m.job.job_id ∉ rankings.map RankingEntry.job_id →
      m.relevance_score = mkRat 1 2) := by
  clear hR
  have hbd : buildJobDict jobs = jobs.map (fun j => (j.job_id, j)) :=
    buildJobDict_eq jobs hN
  have hvals : (buildJobDict jobs).map Prod.snd = jobs := by
    rw [hbd, List.map_map]
    exact List.map_id _
  have hWF : ∀ p ∈ buildJobDict jobs, (Prod.snd p).job_id = p.1 := by
    rw [hbd]
    intro p hp
    rcases List.mem_map.mp hp with ⟨j, _, rfl⟩
    rfl
  have hsortperm : (rankJobs jobs rankings).Perm
      ((scoredMatches (buildJobDict jobs) rankings).1 ++
        defaultMatches (buildJobDict jobs)
          (scoredMatches (buildJobDict jobs) rankings).2) :=
    List.perm_insertionSort scoreGe _
  have hids : ((rankJobs jobs rankings).map (fun m => m.job.job_id)).Perm
      (jobs.map Job.job_id) :=
    (hsortperm.map _).trans (merged_ids_perm jobs rankings hN hM)
  have hmem_jobs : ∀ m ∈ rankJobs jobs rankings, m.job ∈ jobs := by
    intro m hm
    rcases List.mem_append.mp (hsortperm.mem_iff.mp hm) with h | h
    · rw [← hvals]
      exact scoredMatches_job_mem _ _ m h
    · rw [← hvals]
      exact (defaultMatches_mem _ _ m h).2
  refine ⟨?_, hids, ?_, ?_, ?_⟩
  · have := hids.length_eq
    simpa using this
  · intro j hj
    have hinj := List.inj_on_of_nodup_map hN
    rw [List.countP_congr
      (q := fun m => m.job.job_id == j.job_id)
      (fun m hm => by
        simp only [beq_iff_eq]
        constructor
        · intro h; rw [h]
        · intro h; exact hinj (hmem_jobs m hm) hj h)]
    have hcm : (rankJobs jobs rankings).countP
        (fun m => m.job.job_id == j.job_id) =
        ((rankJobs jobs rankings).map (fun m => m.job.job_id)).countP
          (fun k => k == j.job_id) := by
      rw [List.countP_map]
      rfl
    rw [hcm]
    have hcount := hids.countP_eq (fun k => k == j.job_id)
    rw [hcount]
    have : (jobs.map Job.job_id).countP (fun k => k == j.job_id) =
        (jobs.map Job.job_id).count j.job_id := rfl
    rw [this]
    exact List.count_eq_one_of_mem hN (List.mem_map_of_mem _ hj)
  · exact List.sorted_insertionSort scoreGe _
  · intro m hm hnot
    rcases List.mem_append.mp (hsortperm.mem_iff.mp hm) with h | h
    · exfalso
      apply hnot
      have h1 : m.job.job_id ∈
          (scoredMatches (buildJobDict jobs) rankings).1.map
            (fun m => m.job.job_id) :=
        List.mem_map_of_mem _ h
      rw [scoredMatches_map_ids _ hWF, scoredMatches_ids] at h1
      exact List.map_subset _ (fun x hx => List.mem_of_mem_filter hx) h1
    · exact (defaultMatches_mem _ _ m h).1

/-- Concrete three-job list for the C2 witness. -/
def jobsW : List Job :=
  [Job.mk "j1" "Backend Developer" "Acme",
   Job.mk "j2" "Data Engineer" "Globex",
   Job.mk "j3" "ML Engineer" "Initech"]

/-- Concrete mocked ranking response scoring only two of the three jobs. -/
def rksW : List RankingEntry :=
  [RankingEntry.mk "j2" (some (mkRat 9 10)) ["skills match"] [],
   RankingEntry.mk "j1" (some (mkRat 1 10)) [] ["seniority gap"]]

/-- C2 witness: the merge theorem applied to the concrete three-job list with
a response scoring two of them (all hypotheses discharged by evaluation). -/
theorem C2_rank_merge_witness :
    (rankJobs jobsW rksW).length = jobsW.length ∧
    ((rankJobs jobsW rksW).map (fun m => m.job.job_id)).Perm
      (jobsW.map Job.job_id) ∧
    (rankJobs jobsW rksW).countP
      (fun m => m.job == Job.mk "j3" "ML Engineer" "Initech") = 1 ∧
    List.Pairwise scoreGe (rankJobs jobsW rksW) :=
  ⟨(C2_rank_merge jobsW rksW (by decide) (by decide) (by decide)).1,
   (C2_rank_merge jobsW rksW (by decide) (by decide) (by decide)).2.1,
   (C2_rank_merge jobsW rksW (by decide) (by decide) (by decide)).2.2.1
     (Job.mk "j3" "ML Engineer" "Initech") (by decide),
   (C2_rank_merge jobsW rksW (by decide) (by decide) (by decide)).2.2.2.1⟩

/-! ### Orchestrator and session-scoped workflow state
(`src/agents/orchestrator.py`, with the agents' context effects from
`strategy_agent.py`, `market_intelligence_agent.py`,
`personalization_agent.py` and the store from `redis_memory.py`)

The session context is a dict with a fixed set of possible keys; we model it
as a record of optional fields, `none` meaning the key is absent, and dict
`update` as field-wise preference for the update's present keys. The world
threads the session store (the redis map), the uuid counter (each
`str(uuid.uuid4())` draws a fresh value), and an append-only log of agent
`process` invocations used to state trace properties. The agents' language
model and tool collaborators are oracles supplied as `AgentBehaviors`. -/

/-- Profile payload the strategy agent writes (parsed resume fields). -/
structure ProfileD where
  user_id : String
  resume_text : String
  deriving DecidableEq, Repr

/-- Application payload the personalization agent writes. -/
structure AppD where
  application_id : String
  user_id : String
  job_id : String
  deriving DecidableEq, Repr

/-- A stored job match in dict format: the job plus its relevance score. -/
structure JobMatchD where
  job : Job
  relevance_score : ℚ
  deriving DecidableEq, Repr

/-- Session context record: one optional field per context key the
orchestrator and agents use. -/
structure SessionCtx where
  user_id : Option String := none
  task_type : Option String := none
  agent_trace : Option (List String) := none
  profile : Option ProfileD := none
  strategy : Option Strat := none
  job_matches : Option (List JobMatchD) := none
  application : Option AppD := none
  deriving DecidableEq, Repr

/-- Merge of one optional field: the update's value when the key is present,
the old value otherwise (Python `dict.update`). -/
def omerge {α : Type} : Option α → Option α → Option α
  | some x, _ => some x
  | none, o => o

/-- Python `old.update(upd)` at context granularity. -/
def ctxMerge (old upd : SessionCtx) : SessionCtx :=
  SessionCtx.mk (omerge upd.user_id old.user_id)
    (omerge upd.task_type old.task_type)
    (omerge upd.agent_trace old.agent_trace)
    (omerge upd.profile old.profile) (omerge upd.strategy old.strategy)
    (omerge upd.job_matches old.job_matches)
    (omerge upd.application old.application)

/-- World state threaded through a workflow run: the session store, the uuid
counter, and the log of agent invocations in order. -/
structure World where
  store : String → Option SessionCtx
  uuid : Nat
  calls : List String

/-- `redis_memory.set_session_context` (full replacement). -/
def wSet (w : World) (sid : String) (c : SessionCtx) : World :=
  { w with store := fun s => if s = sid then some c else w.store s }

/-- `redis_memory.get_session_context`. -/
def wGet (w : World) (sid : String) : Option SessionCtx := w.store sid

/-- `redis_memory.update_session_context`: read-merge-write. -/
def wUpdateCtx (w : World) (sid : String) (upd : SessionCtx) : World :=
  wSet w sid (ctxMerge ((wGet w sid).getD {}) upd)

/-- One `str(uuid.uuid4())` draw. -/
def freshUuid (w : World) : Nat × World := (w.uuid, { w with uuid := w.uuid + 1 })

/-- Record one agent `process` invocation. -/
def logCall (w : World) (agent : String) : World :=
  { w with calls := w.calls ++ [agent] }

/-- Stored agent trace of a session ([] when the session or key is absent). -/
def storedTrace (w : World) (sid : String) : List String :=
  ((wGet w sid).getD {}).agent_trace.getD []

/-- Oracle outcome of the strategy agent's internals (resume parse plus the
ReAct loop): a success flag and the profile/strategy it would produce. -/
structure StratOutcome where
  success : Bool
  error : String
  profile : ProfileD
  strategy : Strat

/-- Oracle outcome of the market agent's internals (job search plus
ranking): a success flag and the ranked job matches. -/
structure MarketOutcome where
  success : Bool
  error : String
  jobs : List JobMatchD

/-- Oracle outcome of the personalization agent's internals once the job is
found: whether an internal exception is raised (content generation failures
alone never fail the agent). -/
structure PersOutcome where
  raises : Bool
  error : String

/-- The agents' collaborator behaviours, as functions of the context passed
to `process` (and the job id for personalization). -/
structure AgentBehaviors where
  strategyRun : SessionCtx → StratOutcome
  marketRun : SessionCtx → MarketOutcome
  persRun : Option String → SessionCtx → PersOutcome

/-- Result dict returned by an agent's `process`. -/
structure AgentResult where
  success : Bool
  error : Option String := none
  profile : Option ProfileD := none
  strategy : Option Strat := none
  jobs : Option (List JobMatchD) := none
  application : Option AppD := none
  deriving DecidableEq, Repr

/-- `StrategyAgent.process` at orchestration granularity: on success it
merges `{profile, strategy}` into the session context and succeeds; a parse
failure (or internal exception) returns a failure result and writes
nothing. -/
def strategyAgentProcess (b : AgentBehaviors) (sid : String) (ctx : SessionCtx)
    (w : World) : AgentResult × World :=
  let w1 := logCall w "strategy_agent"
  let o := b.strategyRun ctx
  if o.success then
    let w2 := wUpdateCtx w1 sid
      { profile := some o.profile, strategy := some o.strategy }
    (AgentResult.mk true none (some o.profile) (some o.strategy) none none, w2)
  else
    (AgentResult.mk false (some o.error) none none none none, w1)

/-- `MarketIntelligenceAgent.process` at orchestration granularity: on
success it merges `{job_matches}` into the session context. -/
def marketAgentProcess (b : AgentBehaviors) (sid : String) (ctx : SessionCtx)
    (w : World) : AgentResult × World :=
  let w1 := logCall w "market_intelligence_agent"
  let o := b.marketRun ctx
  if o.success then
    let w2 := wUpdateCtx w1 sid { job_matches := some o.jobs }
    (AgentResult.mk true none none none (some o.jobs) none, w2)
  else
    (AgentResult.mk false (some o.error) none none none none, w1)

/-- `PersonalizationAgent.process`: scan the context's job matches for the
requested id; not-found is a failure without any write; otherwise, unless an
internal exception is raised, build the application, merge `{application}`
into the context and succeed. -/
def personalizationAgentProcess (b : AgentBehaviors) (sid : String)
    (user_id job_id : Option String) (ctx : SessionCtx) (w : World) :
    AgentResult × World :=
  let w1 := logCall w "personalization_agent"
  let job_matches := ctx.job_matches.getD []
  match job_matches.find? (fun m => job_id == some m.job.job_id) with
  | none =>
    (AgentResult.mk false
      (some ("Job " ++ job_id.getD "None" ++ " not found in matches"))
      none none none none, w1)
  | some m =>
    let o := b.persRun job_id ctx
    if o.raises then
      (AgentResult.mk false (some o.error) none none none none, w1)
    else
      let app := AppD.mk
        ("app_" ++ user_id.getD "None" ++ "_" ++ m.job.job_id)
        (user_id.getD "None") m.job.job_id
      let w2 := wUpdateCtx w1 sid { application := some app }
      (AgentResult.mk true none none none none (some app), w2)

/-- Task request fields the orchestrator reads. -/
structure TaskRequest where
  task_type : String
  session_id : Option String := none
  user_id : Option String := none
  input_job_id : Option String := none
  deriving Repr

/-- Result dict of one workflow step (`_analyze_profile`, `_find_jobs`,
`_create_application`). -/
structure StepResult where
  task_id : Nat
  session_id : String
  status : String
  result : Option AgentResult := none
  error : Option String := none
  agent_trace : List String
  deriving DecidableEq, Repr

/-- The in-place `context["agent_trace"].append(agent)` on the local copy. -/
def ctxAppendTrace (c : SessionCtx) (agent : String) : SessionCtx :=
  { c with agent_trace := some (c.agent_trace.getD [] ++ [agent]) }

/-- `Orchestrator._analyze_profile`: read the context, append the strategy
agent to the local trace, run the agent, write the local context back, and
report completed or failed from the agent's success flag. -/
def analyzeProfile (b : AgentBehaviors) (req : TaskRequest) (sid : String)
    (w : World) : StepResult × World :=
  let context := ctxAppendTrace ((wGet w sid).getD {}) "strategy_agent"
  let pr := strategyAgentProcess b sid context w
  let tw := freshUuid (wUpdateCtx pr.2 sid context)
  (StepResult.mk tw.1 sid (if pr.1.success then "completed" else "failed")
    (some pr.1) none (context.agent_trace.getD []), tw.2)

/-- Second half of `Orchestrator._find_jobs`: append the market agent to the
local trace, run it, write the local context back. -/
def findJobsMarket (b : AgentBehaviors) (sid : String) (context0 : SessionCtx)
    (w : World) : StepResult × World :=
  let context := ctxAppendTrace context0 "market_intelligence_agent"
  let pr := marketAgentProcess b sid context w
  let tw := freshUuid (wUpdateCtx pr.2 sid context)
  (StepResult.mk tw.1 sid (if pr.1.success then "completed" else "failed")
    (some pr.1) none (context.agent_trace.getD []), tw.2)

/-- Continuation of `_find_jobs` after the strategy sub-step ran: on success
RE-READ the stored context — discarding the local trace append — and proceed
to the market agent; on failure return the failed step (nothing written). -/
def findJobsWithStrategy (b : AgentBehaviors) (sid : String)
    (context1 : SessionCtx) (pr : AgentResult × World) : StepResult × World :=
  if pr.1.success then
    findJobsMarket b sid ((wGet pr.2 sid).getD {}) pr.2
  else
    (StepResult.mk (freshUuid pr.2).1 sid "failed" none
      (some "Profile analysis failed") (context1.agent_trace.getD []),
     (freshUuid pr.2).2)

/-- `Orchestrator._find_jobs`: when the context has no profile, first run the
strategy agent on a locally trace-extended context (then continue as in
`findJobsWithStrategy`); when a profile is present, go straight to the
market agent. -/
def findJobs (b : AgentBehaviors) (req : TaskRequest) (sid : String)
    (w : World) : StepResult × World :=
  if ((wGet w sid).getD {}).profile.isNone then
    findJobsWithStrategy b sid
      (ctxAppendTrace ((wGet w sid).getD {}) "strategy_agent")
      (strategyAgentProcess b sid
        (ctxAppendTrace ((wGet w sid).getD {}) "strategy_agent") w)
  else
    findJobsMarket b sid ((wGet w sid).getD {}) w

/-- Body of `_create_application` once `job_matches` was found: append the
personalization agent to the local trace, run it, write the local context
back. -/
def createApplicationRun (b : AgentBehaviors) (req : TaskRequest)
    (sid : String) (context : SessionCtx) (w : World) : StepResult × World :=
  let pr := personalizationAgentProcess b sid req.user_id req.input_job_id
    context w
  let tw := freshUuid (wUpdateCtx pr.2 sid context)
  (StepResult.mk tw.1 sid (if pr.1.success then "completed" else "failed")
    (some pr.1) none (context.agent_trace.getD []), tw.2)

/-- `Orchestrator._create_application`: fail immediately with a descriptive
error when the context has no `job_matches` key (no agent invoked, nothing
written); otherwise run the personalization body. -/
def createApplication (b : AgentBehaviors) (req : TaskRequest) (sid : String)
    (w : World) : StepResult × World :=
  if ((wGet w sid).getD {}).job_matches.isNone then
    (StepResult.mk (freshUuid w).1 sid "failed" none
      (some "Job matches not found. Run find_jobs first.")
      (((wGet w sid).getD {}).agent_trace.getD []), (freshUuid w).2)
  else
    createApplicationRun b req sid
      (ctxAppendTrace ((wGet w sid).getD {}) "personalization_agent") w

/-- Entry of the journey's aggregated applications list. -/
structure AppEntry where
  job_id : String
  job_title : String
  company : String
  application : Option AgentResult
  deriving DecidableEq, Repr

/-- The `results` dict assembled by `_full_journey` (the applications fields
are present only when job matches existed). -/
structure JourneyResults where
  profile_analysis : StepResult
  job_search : StepResult
  applications : Option (List AppEntry) := none
  applications_count : Option Nat := none
  deriving DecidableEq, Repr

/-- Return value of `_full_journey`: either a failing sub-step's result
returned verbatim, or the final aggregate. -/
inductive JourneyReturn where
  | step (r : StepResult)
  | final (task_id : Nat) (session_id : String) (status : String)
      (results : JourneyResults) (agent_trace : List String)
  deriving DecidableEq, Repr

/-- Collect one fan-out step's entry: completed applications are prepended to
the aggregate, failed ones are dropped (the threaded world is unaffected). -/
def applicationsEntry (jm : JobMatchD) (r : StepResult)
    (lp : List AppEntry × World) : List AppEntry × World :=
  if r.status = "completed" then
    (AppEntry.mk jm.job.job_id jm.job.title jm.job.company r.result :: lp.1,
     lp.2)
  else lp

def applicationsLoop (b : AgentBehaviors) (req : TaskRequest) (sid : String) :
    List JobMatchD → World → List AppEntry × World
  | [], w => ([], w)
  | jm :: rest, w =>
    if jm.job.job_id = "" then applicationsLoop b req sid rest w
    else
      applicationsEntry jm
        (createApplication b { req with input_job_id := some jm.job.job_id }
          sid w).1
        (applicationsLoop b req sid rest
          (createApplication b { req with input_job_id := some jm.job.job_id }
            sid w).2)

/-- Third phase of `_full_journey`: read the context once (both the job
matches and the trace reported in the final aggregate come from this single
read, taken before the fan-out), fan out over the top 3 matches when any
exist, and return the completed aggregate. -/
def fullJourneyApps (b : AgentBehaviors) (req : TaskRequest) (sid : String)
    (ar fr1 : StepResult) (w : World) : JourneyReturn × World :=
  if (((wGet w sid).getD {}).job_matches.getD []).isEmpty then
    (JourneyReturn.final (freshUuid w).1 sid "completed"
      (JourneyResults.mk ar fr1 none none)
      (((wGet w sid).getD {}).agent_trace.getD []), (freshUuid w).2)
  else
    (JourneyReturn.final
      (freshUuid (applicationsLoop b req sid
        ((((wGet w sid).getD {}).job_matches.getD []).take 3) w).2).1
      sid "completed"
      (JourneyResults.mk ar fr1
        (some (applicationsLoop b req sid
          ((((wGet w sid).getD {}).job_matches.getD []).take 3) w).1)
        (some (applicationsLoop b req sid
          ((((wGet w sid).getD {}).job_matches.getD []).take 3) w).1.length))
      (((wGet w sid).getD {}).agent_trace.getD []),
     (freshUuid (applicationsLoop b req sid
       ((((wGet w sid).getD {}).job_matches.getD []).take 3) w).2).2)

/-- Second phase of `_full_journey`: short-circuit on a failed job search,
else continue to the fan-out. -/
def fullJourneySearch (b : AgentBehaviors) (req : TaskRequest) (sid : String)
    (ar : StepResult) (fr : StepResult × World) : JourneyReturn × World :=
  if fr.1.status ≠ "completed" then (JourneyReturn.step fr.1, fr.2)
  else fullJourneyApps b req sid ar fr.1 fr.2

def fullJourney (b : AgentBehaviors) (req : TaskRequest) (sid : String)
    (w : World) : JourneyReturn × World :=
  if (analyzeProfile b req sid w).1.status ≠ "completed" then
    (JourneyReturn.step (analyzeProfile b req sid w).1,
     (analyzeProfile b req sid w).2)
  else
    fullJourneySearch b req sid (analyzeProfile b req sid w).1
      (findJobs b req sid (analyzeProfile b req sid w).2)

/-- Return value of `Orchestrator.execute_task`: a workflow result or the
unknown-task error dict. -/
inductive ExecReturn where
  | step (r : StepResult)
  | journey (r : JourneyReturn)
  | unknownTask (success : Bool) (error : String) (session_id : String)
  deriving DecidableEq, Repr

/-- Session id resolution `task_request.get("session_id") or
str(uuid.uuid4())`: an absent (or falsy empty) id draws a fresh one. -/
def resolveSession (req : TaskRequest) (w : World) : String × World :=
  match req.session_id with
  | some s =>
    if s = "" then
      let nw := freshUuid w
      ("uuid-" ++ toString nw.1, nw.2)
    else (s, w)
  | none =>
    let nw := freshUuid w
    ("uuid-" ++ toString nw.1, nw.2)

/-- The context `execute_task` installs before dispatch. -/
def initCtx (req : TaskRequest) : SessionCtx :=
  { user_id := req.user_id, task_type := some req.task_type,
    agent_trace := some [] }

/-- Dispatch on the workflow name after context initialization. -/
def executeDispatch (b : AgentBehaviors) (req : TaskRequest) (sid : String)
    (w1 : World) : ExecReturn × World :=
  if req.task_type = "analyze_profile" then
    (ExecReturn.step (analyzeProfile b req sid w1).1,
     (analyzeProfile b req sid w1).2)
  else if req.task_type = "find_jobs" then
    (ExecReturn.step (findJobs b req sid w1).1, (findJobs b req sid w1).2)
  else if req.task_type = "create_application" then
    (ExecReturn.step (createApplication b req sid w1).1,
     (createApplication b req sid w1).2)
  else if req.task_type = "full_journey" then
    (ExecReturn.journey (fullJourney b req sid w1).1,
     (fullJourney b req sid w1).2)
  else
    (ExecReturn.unknownTask false ("Unknown task type: " ++ req.task_type) sid,
      w1)

def executeTask (b : AgentBehaviors) (req : TaskRequest) (w : World) :
    ExecReturn × World :=
  executeDispatch b req (resolveSession req w).1
    (wSet (resolveSession req w).2 (resolveSession req w).1 (initCtx req))

/-! ### World lemmas -/

/-- Reading a session right after writing it. -/
theorem wGet_wSet_self (w : World) (sid : String) (c : SessionCtx) :
    wGet (wSet w sid c) sid = some c := by
  simp [wGet, wSet]

/-- Reading a session right after a read-merge-write of it. -/
theorem wGet_wUpdateCtx_self (w : World) (sid : String) (u : SessionCtx) :
    wGet (wUpdateCtx w sid u) sid =
      some (ctxMerge ((wGet w sid).getD {}) u) := by
  simp [wUpdateCtx, wGet_wSet_self]

/-- C5: `create_application` on a session context lacking `job_matches`
returns a failed result with the descriptive error, invokes no agent, leaves
the whole session store untouched (in particular the agent trace is not
extended), and reports the stored trace as is. -/
theorem C5_create_application_missing_matches (b : AgentBehaviors)
    (req : TaskRequest) (sid : String) (w : World)
    (h : ((wGet w sid).getD {}).job_matches = none) :
    (createApplication b req sid w).1.status = "failed" ∧
    (createApplication b req sid w).1.error =
      some "Job matches not found. Run find_jobs first." ∧
    (createApplication b req sid w).1.result = none ∧
    (createApplication b req sid w).2.calls = w.calls ∧
    (createApplication b req sid w).2.store = w.store ∧
    (createApplication b req sid w).1.agent_trace = storedTrace w sid := by
  unfold createApplication
  simp [h, storedTrace, freshUuid]

/-- Fresh world fixture: empty store, zero uuid counter, no invocations. -/
def w0W : World := World.mk (fun _ => none) 0 []

/-- Concrete behaviours in which every collaborator succeeds and the market
returns three ranked matches. -/
def behOk : AgentBehaviors :=
  AgentBehaviors.mk
    (fun _ => StratOutcome.mk true "" (ProfileD.mk "u1" "resume text")
      stratCompleteEx)
    (fun _ => MarketOutcome.mk true ""
      [JobMatchD.mk (Job.mk "j1" "T1" "C1") (mkRat 9 10),
       JobMatchD.mk (Job.mk "j2" "T2" "C2") (mkRat 7 10),
       JobMatchD.mk (Job.mk "j3" "T3" "C3") (mkRat 1 2)])
    (fun _ _ => PersOutcome.mk false "")

/-- C5 witness: on a session initialized by `execute_task` (so lacking
`job_matches`), the create_application step fails without extending calls or
store. -/
theorem C5_create_application_missing_matches_witness :
    (createApplication behOk (TaskRequest.mk "create_application" (some "s2")
        (some "u1") (some "j1")) "s2"
      (wSet w0W "s2" (initCtx (TaskRequest.mk "create_application" (some "s2")
        (some "u1") (some "j1"))))).1.status = "failed" ∧
    (createApplication behOk (TaskRequest.mk "create_application" (some "s2")
        (some "u1") (some "j1")) "s2"
      (wSet w0W "s2" (initCtx (TaskRequest.mk "create_application" (some "s2")
        (some "u1") (some "j1"))))).2.calls =
      (wSet w0W "s2" (initCtx (TaskRequest.mk "create_application" (some "s2")
        (some "u1") (some "j1")))).calls :=
  ⟨(C5_create_application_missing_matches behOk _ "s2" _ (by decide)).1,
   (C5_create_application_missing_matches behOk _ "s2" _ (by decide)).2.2.2.1⟩

/-! ### Store-presence preservation through the workflows -/

/-- The strategy agent never deletes the session entry. -/
theorem strategyAgentProcess_store_isSome (b : AgentBehaviors) (sid : String)
    (ctx : SessionCtx) (w : World) (h : (wGet w sid).isSome) :
    (wGet (strategyAgentProcess b sid ctx w).2 sid).isSome := by
  unfold strategyAgentProcess
  cases hs : (b.strategyRun ctx).success
  · simpa [hs, logCall, wGet] using h
  · simp [hs, wUpdateCtx, wGet, wSet]

/-- The market agent never deletes the session entry. -/
theorem marketAgentProcess_store_isSome (b : AgentBehaviors) (sid : String)
    (ctx : SessionCtx) (w : World) (h : (wGet w sid).isSome) :
    (wGet (marketAgentProcess b sid ctx w).2 sid).isSome := by
  unfold marketAgentProcess
  cases hs : (b.marketRun ctx).success
  · simpa [hs, logCall, wGet] using h
  · simp [hs, wUpdateCtx, wGet, wSet]

/-- The personalization agent never deletes the session entry. -/
theorem personalizationAgentProcess_store_isSome (b : AgentBehaviors)
    (sid : String) (uid jid : Option String) (ctx : SessionCtx) (w : World)
    (h : (wGet w sid).isSome) :
    (wGet (personalizationAgentProcess b sid uid jid ctx w).2 sid).isSome := by
  unfold personalizationAgentProcess
  cases hf : (ctx.job_matches.getD []).find? (fun m => jid == some m.job.job_id)
  · simpa [hf, logCall, wGet] using h
  · cases hr : (b.persRun jid ctx).raises
    · simp [hf, hr, wUpdateCtx, wGet, wSet]
    · simpa [hf, hr, logCall, wGet] using h

/-- `_analyze_profile` ends by writing the session context back. -/
theorem analyzeProfile_store_isSome (b : AgentBehaviors) (req : TaskRequest)
    (sid : String) (w : World) :
    (wGet (analyzeProfile b req sid w).2 sid).isSome := by
  unfold analyzeProfile
  simp [freshUuid, wUpdateCtx, wGet, wSet]

/-- The market half of `_find_jobs` ends by writing the context back. -/
theorem findJobsMarket_store_isSome (b : AgentBehaviors) (sid : String)
    (c0 : SessionCtx) (w : World) :
    (wGet (findJobsMarket b sid c0 w).2 sid).isSome := by
  unfold findJobsMarket
  simp [freshUuid, wUpdateCtx, wGet, wSet]

/-- The strategy-first continuation of `_find_jobs` never deletes the
session entry. -/
theorem findJobsWithStrategy_store_isSome (b : AgentBehaviors) (sid : String)
    (c1 : SessionCtx) (pr : AgentResult × World)
    (h : (wGet pr.2 sid).isSome) :
    (wGet (findJobsWithStrategy b sid c1 pr).2 sid).isSome := by
  unfold findJobsWithStrategy
  split
  · exact findJobsMarket_store_isSome _ _ _ _
  · simpa [freshUuid, wGet] using h

/-- `_find_jobs` never deletes the session entry. -/
theorem findJobs_store_isSome (b : AgentBehaviors) (req : TaskRequest)
    (sid : String) (w : World) (h : (wGet w sid).isSome) :
    (wGet (findJobs b req sid w).2 sid).isSome := by
  unfold findJobs
  split
  · exact findJobsWithStrategy_store_isSome _ _ _ _
      (strategyAgentProcess_store_isSome _ _ _ _ h)
  · exact findJobsMarket_store_isSome _ _ _ _

/-- The personalization body of `_create_application` ends by writing the
context back. -/
theorem createApplicationRun_store_isSome (b : AgentBehaviors)
    (req : TaskRequest) (sid : String) (c : SessionCtx) (w : World) :
    (wGet (createApplicationRun b req sid c w).2 sid).isSome := by
  unfold createApplicationRun
  simp [freshUuid, wUpdateCtx, wGet, wSet]

/-- `_create_application` never deletes the session entry. -/
theorem createApplication_store_isSome (b : AgentBehaviors)
    (req : TaskRequest) (sid : String) (w : World)
    (h : (wGet w sid).isSome) :
    (wGet (createApplication b req sid w).2 sid).isSome := by
  unfold createApplication
  split
  · simpa [freshUuid, wGet] using h
  · exact createApplicationRun_store_isSome _ _ _ _ _

/-- The entry collector leaves the threaded world unchanged. -/
theorem applicationsEntry_snd (jm : JobMatchD) (r : StepResult)
    (lp : List AppEntry × World) : (applicationsEntry jm r lp).2 = lp.2 := by
  unfold applicationsEntry
  split <;> rfl

/-- The fan-out never deletes the session entry. -/
theorem applicationsLoop_store_isSome (b : AgentBehaviors) (req : TaskRequest)
    (sid : String) (jms : List JobMatchD) :
    ∀ w : World, (wGet w sid).isSome →
    (wGet (applicationsLoop b req sid jms w).2 sid).isSome := by
  induction jms with
  | nil => intro w h; simpa [applicationsLoop] using h
  | cons jm rest ih =>
    intro w h
    unfold applicationsLoop
    split
    · exact ih w h
    · rw [applicationsEntry_snd]
      exact ih _ (createApplication_store_isSome _ _ _ _ h)

/-- The fan-out phase of `_full_journey` never deletes the session entry. -/
theorem fullJourneyApps_store_isSome (b : AgentBehaviors) (req : TaskRequest)
    (sid : String) (ar fr1 : StepResult) (w : World)
    (h : (wGet w sid).isSome) :
    (wGet (fullJourneyApps b req sid ar fr1 w).2 sid).isSome := by
  unfold fullJourneyApps
  split
  · simpa [freshUuid, wGet] using h
  · simpa [freshUuid, wGet] using
      applicationsLoop_store_isSome b req sid _ w h

/-- The search phase of `_full_journey` never deletes the session entry. -/
theorem fullJourneySearch_store_isSome (b : AgentBehaviors)
    (req : TaskRequest) (sid : String) (ar : StepResult)
    (fr : StepResult × World) (h : (wGet fr.2 sid).isSome) :
    (wGet (fullJourneySearch b req sid ar fr).2 sid).isSome := by
  unfold fullJourneySearch
  split
  · exact h
  · exact fullJourneyApps_store_isSome _ _ _ _ _ _ h

/-- `_full_journey` never deletes the session entry. -/
theorem fullJourney_store_isSome (b : AgentBehaviors) (req : TaskRequest)
    (sid : String) (w : World) :
    (wGet (fullJourney b req sid w).2 sid).isSome := by
  unfold fullJourney
  split
  · exact analyzeProfile_store_isSome b req sid w
  · exact fullJourneySearch_store_isSome b req sid _ _
      (findJobs_store_isSome b req sid _
        (analyzeProfile_store_isSome b req sid w))

/-- C6: for every `execute_task` call, whatever the workflow name, the
session context is replaced with exactly `{user_id, task_type,
agent_trace: []}` before dispatch, and the store holds a context for the
session when the call returns — on every path, including the unknown-task
error path and every failing workflow path. -/
theorem C6_init_unconditional (b : AgentBehaviors) (req : TaskRequest)
    (w : World) :
    wGet (wSet (resolveSession req w).2 (resolveSession req w).1 (initCtx req))
      (resolveSession req w).1 = some (initCtx req) ∧
    (wGet (executeTask b req w).2 (resolveSession req w).1).isSome := by
  refine ⟨wGet_wSet_self _ _ _, ?_⟩
  unfold executeTask executeDispatch
  have hinit : (wGet (wSet (resolveSession req w).2 (resolveSession req w).1
      (initCtx req)) (resolveSession req w).1).isSome := by
    rw [wGet_wSet_self]
    rfl
  split
  · exact analyzeProfile_store_isSome b req _ _
  · split
    · exact findJobs_store_isSome b req _ _ hinit
    · split
      · exact createApplication_store_isSome b req _ _ hinit
      · split
        · exact fullJourney_store_isSome _ _ _ _
        · exact hinit

/-! ### Invocation-log characterisations -/

/-- The strategy agent logs exactly one invocation. -/
theorem strategyAgentProcess_calls (b : AgentBehaviors) (sid : String)
    (ctx : SessionCtx) (w : World) :
    (strategyAgentProcess b sid ctx w).2.calls =
      w.calls ++ ["strategy_agent"] := by
  unfold strategyAgentProcess
  cases hs : (b.strategyRun ctx).success <;>
    simp [hs, logCall, wUpdateCtx, wSet]

/-- The market agent logs exactly one invocation. -/
theorem marketAgentProcess_calls (b : AgentBehaviors) (sid : String)
    (ctx : SessionCtx) (w : World) :
    (marketAgentProcess b sid ctx w).2.calls =
      w.calls ++ ["market_intelligence_agent"] := by
  unfold marketAgentProcess
  cases hs : (b.marketRun ctx).success <;>
    simp [hs, logCall, wUpdateCtx, wSet]

/-- The personalization agent logs exactly one invocation. -/
theorem personalizationAgentProcess_calls (b : AgentBehaviors) (sid : String)
    (uid jid : Option String) (ctx : SessionCtx) (w : World) :
    (personalizationAgentProcess b sid uid jid ctx w).2.calls =
      w.calls ++ ["personalization_agent"] := by
  unfold personalizationAgentProcess
  cases hf : (ctx.job_matches.getD []).find? (fun m => jid == some m.job.job_id)
  · simp [hf, logCall]
  · cases hr : (b.persRun jid ctx).raises <;>
      simp [hf, hr, logCall, wUpdateCtx, wSet]

/-- `_analyze_profile` invokes exactly the strategy agent. -/
theorem analyzeProfile_calls (b : AgentBehaviors) (req : TaskRequest)
    (sid : String) (w : World) :
    (analyzeProfile b req sid w).2.calls = w.calls ++ ["strategy_agent"] := by
  unfold analyzeProfile
  simp [freshUuid, wUpdateCtx, wSet, strategyAgentProcess_calls]

/-- The market half of `_find_jobs` invokes exactly the market agent. -/
theorem findJobsMarket_calls (b : AgentBehaviors) (sid : String)
    (c0 : SessionCtx) (w : World) :
    (findJobsMarket b sid c0 w).2.calls =
      w.calls ++ ["market_intelligence_agent"] := by
  unfold findJobsMarket
  simp [freshUuid, wUpdateCtx, wSet, marketAgentProcess_calls]

/-- `_find_jobs` appends some invocations, never the personalization
agent. -/
theorem findJobs_calls (b : AgentBehaviors) (req : TaskRequest) (sid : String)
    (w : World) :
    ∃ t, (findJobs b req sid w).2.calls = w.calls ++ t ∧
      "personalization_agent" ∉ t := by
  unfold findJobs
  split
  · unfold findJobsWithStrategy
    split
    · refine ⟨["strategy_agent", "market_intelligence_agent"], ?_, by decide⟩
      rw [findJobsMarket_calls, strategyAgentProcess_calls]
      simp
    · refine ⟨["strategy_agent"], ?_, by decide⟩
      simpa [freshUuid] using strategyAgentProcess_calls b sid _ w
  · exact ⟨["market_intelligence_agent"], findJobsMarket_calls _ _ _ _,
      by decide⟩

/-- C3: if the profile-analysis step of `_full_journey` fails, the journey
returns that step's result object verbatim (same task id, same world) and
only the strategy agent was ever invoked; if profile analysis completes but
the job-search step fails, the journey returns the job-search step's result
verbatim and the personalization agent is never invoked. -/
theorem C3_journey_short_circuit (b : AgentBehaviors) (req : TaskRequest)
    (sid : String) (w : World) :
    ((analyzeProfile b req sid w).1.status ≠ "completed" →
      fullJourney b req sid w =
        (JourneyReturn.step (analyzeProfile b req sid w).1,
         (analyzeProfile b req sid w).2) ∧
      (analyzeProfile b req sid w).2.calls = w.calls ++ ["strategy_agent"]) ∧
    ((analyzeProfile b req sid w).1.status = "completed" →
      (findJobs b req sid (analyzeProfile b req sid w).2).1.status ≠
        "completed" →
      fullJourney b req sid w =
        (JourneyReturn.step
          (findJobs b req sid (analyzeProfile b req sid w).2).1,
         (findJobs b req sid (analyzeProfile b req sid w).2).2) ∧
      "personalization_agent" ∉
        (fullJourney b req sid w).2.calls.drop w.calls.length) := by
  constructor
  · intro h
    refine ⟨?_, analyzeProfile_calls b req sid w⟩
    unfold fullJourney
    rw [if_pos h]
  · intro h1 h2
    have hj : fullJourney b req sid w =
        (JourneyReturn.step
          (findJobs b req sid (analyzeProfile b req sid w).2).1,
         (findJobs b req sid (analyzeProfile b req sid w).2).2) := by
      unfold fullJourney
      rw [if_neg (fun hne => hne h1)]
      unfold fullJourneySearch
      rw [if_pos h2]
    refine ⟨hj, ?_⟩
    rw [hj]
    obtain ⟨t, ht, hpt⟩ :=
      findJobs_calls b req sid (analyzeProfile b req sid w).2
    rw [ht, analyzeProfile_calls b req sid w, List.append_assoc,
      List.drop_left]
    simpa using hpt

/-- Behaviours whose strategy oracle (resume parse) fails. -/
def behStratFail : AgentBehaviors :=
  AgentBehaviors.mk
    (fun _ => StratOutcome.mk false "Parse error"
      (ProfileD.mk "u1" "") stratIncomplete)
    (fun _ => MarketOutcome.mk true "" [])
    (fun _ _ => PersOutcome.mk false "")

/-- Request fixture for a journey run. -/
def reqJW : TaskRequest :=
  TaskRequest.mk "full_journey" (some "s1") (some "u1") none

/-- C3 witness: with a failing resume parse, the journey returns the failing
analysis step verbatim and only the strategy agent ran. -/
theorem C3_journey_short_circuit_witness :
    fullJourney behStratFail reqJW "s1" w0W =
      (JourneyReturn.step (analyzeProfile behStratFail reqJW "s1" w0W).1,
       (analyzeProfile behStratFail reqJW "s1" w0W).2) ∧
    (analyzeProfile behStratFail reqJW "s1" w0W).2.calls =
      w0W.calls ++ ["strategy_agent"] :=
  (C3_journey_short_circuit behStratFail reqJW "s1" w0W).1 (by decide)

/-! ### Fan-out lemmas -/

/-- `_create_application` on a session whose context has job matches: exactly
one personalization invocation is logged, and the stored context keeps its
job matches afterwards (the local context, matches included, is written back
whether or not the agent succeeded). -/
theorem createApplication_matches_present (b : AgentBehaviors)
    (req : TaskRequest) (sid : String) (w : World)
    (h : ((wGet w sid).getD {}).job_matches.isSome = true) :
    (createApplication b req sid w).2.calls =
      w.calls ++ ["personalization_agent"] ∧
    ((wGet (createApplication b req sid w).2 sid).getD
      {}).job_matches.isSome = true := by
  have hnn : ¬(((wGet w sid).getD {}).job_matches.isNone = true) := by
    cases hjm : ((wGet w sid).getD {}).job_matches
    · rw [hjm] at h
      simp at h
    · simp [hjm]
  unfold createApplication
  rw [if_neg hnn]
  constructor
  · unfold createApplicationRun
    simp [freshUuid, wUpdateCtx, wSet, personalizationAgentProcess_calls]
  · unfold createApplicationRun
    simp only [wGet] at h
    cases hjm : ((w.store sid).getD {}).job_matches
    · rw [hjm] at h
      simp at h
    · simp [freshUuid, wUpdateCtx, wGet, wSet, ctxMerge, ctxAppendTrace,
        omerge, hjm]

/-- The fan-out is independent per job: every job with an id is attempted
(its `_create_application` outcome is recorded), regardless of other jobs'
failures; the aggregate is exactly the completed outcomes, in order; and
exactly one personalization invocation is logged per attempted job. -/
theorem applicationsLoop_spec (b : AgentBehaviors) (req : TaskRequest)
    (sid : String) (jms : List JobMatchD) :
    ∀ w : World, ((wGet w sid).getD {}).job_matches.isSome = true →
    (∀ jm ∈ jms, jm.job.job_id ≠ "") →
    ∃ outcomes : List (JobMatchD × StepResult),
      outcomes.map Prod.fst = jms ∧
      (applicationsLoop b req sid jms w).1 =
        (outcomes.filter (fun p => p.2.status == "completed")).map
          (fun p => AppEntry.mk p.1.job.job_id p.1.job.title p.1.job.company
            p.2.result) ∧
      (applicationsLoop b req sid jms w).2.calls =
        w.calls ++ jms.map (fun _ => "personalization_agent") := by
  induction jms with
  | nil =>
    intro w _ _
    exact ⟨[], rfl, rfl, by simp [applicationsLoop]⟩
  | cons jm rest ih =>
    intro w h hids
    have hid : ¬jm.job.job_id = "" := hids jm (List.mem_cons_self _ _)
    have hstep : applicationsLoop b req sid (jm :: rest) w =
        applicationsEntry jm
          (createApplication b { req with input_job_id := some jm.job.job_id }
            sid w).1
          (applicationsLoop b req sid rest
            (createApplication b
              { req with input_job_id := some jm.job.job_id } sid w).2) := by
      simp only [applicationsLoop]
      rw [if_neg hid]
    obtain ⟨hcalls, hpres⟩ := createApplication_matches_present b
      { req with input_job_id := some jm.job.job_id } sid w h
    obtain ⟨outs, ho1, ho2, ho3⟩ :=
      ih _ hpres (fun x hx => hids x (List.mem_cons_of_mem _ hx))
    refine ⟨(jm, (createApplication b
      { req with input_job_id := some jm.job.job_id } sid w).1) :: outs,
      ?_, ?_, ?_⟩
    · simp [ho1]
    · rw [hstep]
      unfold applicationsEntry
      by_cases hc : (createApplication b
          { req with input_job_id := some jm.job.job_id } sid w).1.status =
          "completed"
      · rw [if_pos hc]
        simp [List.filter_cons, hc, ho2]
      · rw [if_neg hc]
        simp [List.filter_cons, hc, ho2]
    · rw [hstep, applicationsEntry_snd, ho3, hcalls]
      simp

/-- C7: the per-job fan-out of `_full_journey` is failure-isolated: every top
job is attempted independently (a failure on one does not abort the others),
the aggregate's applications list contains exactly the completed
applications, `applications_count` is its length, and whenever the first two
steps completed and matches exist, the journey still returns overall status
`completed` with exactly that aggregate. -/
theorem C7_fanout_isolated (b : AgentBehaviors) (req : TaskRequest)
    (sid : String) (w : World) :
    (∀ (jms : List JobMatchD) (w0 : World),
      ((wGet w0 sid).getD {}).job_matches.isSome = true →
      (∀ jm ∈ jms, jm.job.job_id ≠ "") →
      ∃ outcomes : List (JobMatchD × StepResult),
        outcomes.map Prod.fst = jms ∧
        (applicationsLoop b req sid jms w0).1 =
          (outcomes.filter (fun p => p.2.status == "completed")).map
            (fun p => AppEntry.mk p.1.job.job_id p.1.job.title
              p.1.job.company p.2.result) ∧
        (applicationsLoop b req sid jms w0).2.calls =
          w0.calls ++ jms.map (fun _ => "personalization_agent")) ∧
    ((analyzeProfile b req sid w).1.status = "completed" →
      (findJobs b req sid (analyzeProfile b req sid w).2).1.status =
        "completed" →
      (((wGet (findJobs b req sid (analyzeProfile b req sid w).2).2 sid).getD
        {}).job_matches.getD []).isEmpty = false →
      fullJourney b req sid w =
        (JourneyReturn.final
          (freshUuid (applicationsLoop b req sid
            ((((wGet (findJobs b req sid (analyzeProfile b req sid w).2).2
              sid).getD {}).job_matches.getD []).take 3)
            (findJobs b req sid (analyzeProfile b req sid w).2).2).2).1
          sid "completed"
          (JourneyResults.mk (analyzeProfile b req sid w).1
            (findJobs b req sid (analyzeProfile b req sid w).2).1
            (some (applicationsLoop b req sid
              ((((wGet (findJobs b req sid (analyzeProfile b req sid w).2).2
                sid).getD {}).job_matches.getD []).take 3)
              (findJobs b req sid (analyzeProfile b req sid w).2).2).1)
            (some (applicationsLoop b req sid
              ((((wGet (findJobs b req sid (analyzeProfile b req sid w).2).2
                sid).getD {}).job_matches.getD []).take 3)
              (findJobs b req sid (analyzeProfile b req sid w).2).2).1.length))
          (((wGet (findJobs b req sid (analyzeProfile b req sid w).2).2
            sid).getD {}).agent_trace.getD []),
         (freshUuid (applicationsLoop b req sid
           ((((wGet (findJobs b req sid (analyzeProfile b req sid w).2).2
             sid).getD {}).job_matches.getD []).take 3)
           (findJobs b req sid (analyzeProfile b req sid w).2).2).2).2)) := by
  constructor
  · intro jms w0 h hids
    exact applicationsLoop_spec b req sid jms w0 h hids
  · intro h1 h2 h3
    unfold fullJourney
    rw [if_neg (fun hne => hne h1)]
    unfold fullJourneySearch
    rw [if_neg (fun hne => hne h2)]
    unfold fullJourneyApps
    rw [if_neg (fun hc => by rw [h3] at hc; exact absurd hc (by decide))]

/-- Three ranked matches used in the fan-out fixtures. -/
def jmsW3 : List JobMatchD :=
  [JobMatchD.mk (Job.mk "j1" "T1" "C1") (mkRat 9 10),
   JobMatchD.mk (Job.mk "j2" "T2" "C2") (mkRat 7 10),
   JobMatchD.mk (Job.mk "j3" "T3" "C3") (mkRat 1 2)]

/-- Behaviours where profile analysis and job search succeed but the
personalization collaborator raises for job j2 only. -/
def behFlaky : AgentBehaviors :=
  AgentBehaviors.mk
    (fun _ => StratOutcome.mk true "" (ProfileD.mk "u1" "resume text")
      stratCompleteEx)
    (fun _ => MarketOutcome.mk true "" jmsW3)
    (fun jid _ => PersOutcome.mk (jid == some "j2") "boom")

/-- World fixture as `execute_task` leaves it right after initialization. -/
def wInitW : World := wSet w0W "s1" (initCtx reqJW)

/-- World fixture whose session context already carries the three matches. -/
def wMatchesW : World :=
  wSet w0W "s1" { initCtx reqJW with job_matches := some jmsW3 }

/-- C7 witness: the fan-out theorem applied to the flaky behaviours (one of
three jobs fails); both the loop conjunct and the journey conjunct are
discharged at concrete inputs. -/
theorem C7_fanout_isolated_witness :
    (∃ outcomes : List (JobMatchD × StepResult),
      outcomes.map Prod.fst = jmsW3 ∧
      (applicationsLoop behFlaky reqJW "s1" jmsW3 wMatchesW).1 =
        (outcomes.filter (fun p => p.2.status == "completed")).map
          (fun p => AppEntry.mk p.1.job.job_id p.1.job.title p.1.job.company
            p.2.result) ∧
      (applicationsLoop behFlaky reqJW "s1" jmsW3 wMatchesW).2.calls =
        wMatchesW.calls ++ jmsW3.map (fun _ => "personalization_agent")) ∧
    fullJourney behFlaky reqJW "s1" wInitW =
      (JourneyReturn.final
        (freshUuid (applicationsLoop behFlaky reqJW "s1"
          ((((wGet (findJobs behFlaky reqJW "s1"
            (analyzeProfile behFlaky reqJW "s1" wInitW).2).2 "s1").getD
            {}).job_matches.getD []).take 3)
          (findJobs behFlaky reqJW "s1"
            (analyzeProfile behFlaky reqJW "s1" wInitW).2).2).2).1
        "s1" "completed"
        (JourneyResults.mk (analyzeProfile behFlaky reqJW "s1" wInitW).1
          (findJobs behFlaky reqJW "s1"
            (analyzeProfile behFlaky reqJW "s1" wInitW).2).1
          (some (applicationsLoop behFlaky reqJW "s1"
            ((((wGet (findJobs behFlaky reqJW "s1"
              (analyzeProfile behFlaky reqJW "s1" wInitW).2).2 "s1").getD
              {}).job_matches.getD []).take 3)
            (findJobs behFlaky reqJW "s1"
              (analyzeProfile behFlaky reqJW "s1" wInitW).2).2).1)
          (some (applicationsLoop behFlaky reqJW "s1"
            ((((wGet (findJobs behFlaky reqJW "s1"
              (analyzeProfile behFlaky reqJW "s1" wInitW).2).2 "s1").getD
              {}).job_matches.getD []).take 3)
            (findJobs behFlaky reqJW "s1"
              (analyzeProfile behFlaky reqJW "s1" wInitW).2).2).1.length))
        (((wGet (findJobs behFlaky reqJW "s1"
          (analyzeProfile behFlaky reqJW "s1" wInitW).2).2 "s1").getD
          {}).agent_trace.getD []),
       (freshUuid (applicationsLoop behFlaky reqJW "s1"
         ((((wGet (findJobs behFlaky reqJW "s1"
           (analyzeProfile behFlaky reqJW "s1" wInitW).2).2 "s1").getD
           {}).job_matches.getD []).take 3)
         (findJobs behFlaky reqJW "s1"
           (analyzeProfile behFlaky reqJW "s1" wInitW).2).2).2).2) :=
  ⟨(C7_fanout_isolated behFlaky reqJW "s1" wInitW).1 jmsW3 wMatchesW
      (by decide) (by decide),
   (C7_fanout_isolated behFlaky reqJW "s1" wInitW).2 (by decide) (by decide)
      (by decide)⟩

/-! ### Stored-trace characterisations -/

/-- A context merge whose update does not carry an agent_trace key leaves the
stored trace unchanged. -/
theorem storedTrace_wUpdateCtx_none (w : World) (sid : String)
    (u : SessionCtx) (h : u.agent_trace = none) :
    storedTrace (wUpdateCtx w sid u) sid = storedTrace w sid := by
  simp [storedTrace, wUpdateCtx, wGet, wSet, ctxMerge, omerge, h]

/-- A context merge carrying an agent_trace key overwrites the stored
trace. -/
theorem storedTrace_wUpdateCtx_some (w : World) (sid : String)
    (u : SessionCtx) (t : List String) (h : u.agent_trace = some t) :
    storedTrace (wUpdateCtx w sid u) sid = t := by
  simp [storedTrace, wUpdateCtx, wGet, wSet, ctxMerge, omerge, h]

/-- The strategy agent's own context write never touches the trace. -/
theorem storedTrace_strategyAgentProcess (b : AgentBehaviors) (sid : String)
    (ctx : SessionCtx) (w : World) :
    storedTrace (strategyAgentProcess b sid ctx w).2 sid =
      storedTrace w sid := by
  unfold strategyAgentProcess
  cases hs : (b.strategyRun ctx).success <;>
    simp [hs, logCall, storedTrace, wUpdateCtx, wGet, wSet, ctxMerge, omerge]

/-- The personalization agent's own context write never touches the trace. -/
theorem storedTrace_personalizationAgentProcess (b : AgentBehaviors)
    (sid : String) (uid jid : Option String) (ctx : SessionCtx) (w : World) :
    storedTrace (personalizationAgentProcess b sid uid jid ctx w).2 sid =
      storedTrace w sid := by
  unfold personalizationAgentProcess
  cases hf : (ctx.job_matches.getD []).find? (fun m => jid == some m.job.job_id)
  · simp [hf, logCall, storedTrace, wGet]
  · cases hr : (b.persRun jid ctx).raises <;>
      simp [hf, hr, logCall, storedTrace, wUpdateCtx, wGet, wSet, ctxMerge,
        omerge]

/-- `_analyze_profile` extends the stored trace by exactly the strategy
agent. -/
theorem storedTrace_freshUuid (w : World) (sid : String) :
    storedTrace (freshUuid w).2 sid = storedTrace w sid := rfl

theorem storedTrace_analyzeProfile (b : AgentBehaviors) (req : TaskRequest)
    (sid : String) (w : World) :
    storedTrace (analyzeProfile b req sid w).2 sid =
      storedTrace w sid ++ ["strategy_agent"] := by
  unfold analyzeProfile
  simp [storedTrace, freshUuid, wUpdateCtx, wGet, wSet, ctxMerge, omerge,
    ctxAppendTrace]

/-- The market half of `_find_jobs` writes back the passed context's trace
extended by the market agent. -/
theorem storedTrace_findJobsMarket (b : AgentBehaviors) (sid : String)
    (c0 : SessionCtx) (w : World) :
    storedTrace (findJobsMarket b sid c0 w).2 sid =
      c0.agent_trace.getD [] ++ ["market_intelligence_agent"] := by
  unfold findJobsMarket
  simp [storedTrace, freshUuid, wUpdateCtx, wGet, wSet, ctxMerge, omerge,
    ctxAppendTrace]

/-- `_find_jobs` only ever extends the stored trace. -/
theorem storedTrace_findJobs (b : AgentBehaviors) (req : TaskRequest)
    (sid : String) (w : World) :
    ∃ e, storedTrace (findJobs b req sid w).2 sid = storedTrace w sid ++ e := by
  unfold findJobs
  split
  · unfold findJobsWithStrategy
    split
    · refine ⟨["market_intelligence_agent"], ?_⟩
      rw [storedTrace_findJobsMarket]
      have hpr := storedTrace_strategyAgentProcess b sid
        (ctxAppendTrace ((wGet w sid).getD {}) "strategy_agent") w
      rw [show ((wGet (strategyAgentProcess b sid
          (ctxAppendTrace ((wGet w sid).getD {}) "strategy_agent") w).2
          sid).getD {}).agent_trace.getD [] =
        storedTrace (strategyAgentProcess b sid
          (ctxAppendTrace ((wGet w sid).getD {}) "strategy_agent") w).2 sid
        from rfl, hpr]
    · refine ⟨[], ?_⟩
      rw [List.append_nil]
      have hpr := storedTrace_strategyAgentProcess b sid
        (ctxAppendTrace ((wGet w sid).getD {}) "strategy_agent") w
      simpa [storedTrace, freshUuid, wGet] using hpr
  · exact ⟨["market_intelligence_agent"], storedTrace_findJobsMarket _ _ _ _⟩

/-- `_create_application` only ever extends the stored trace. -/
theorem storedTrace_createApplication (b : AgentBehaviors) (req : TaskRequest)
    (sid : String) (w : World) :
    ∃ e, storedTrace (createApplication b req sid w).2 sid =
      storedTrace w sid ++ e := by
  unfold createApplication
  split
  · exact ⟨[], by simp [storedTrace, freshUuid, wGet]⟩
  · refine ⟨["personalization_agent"], ?_⟩
    unfold createApplicationRun
    simp [storedTrace, freshUuid, wUpdateCtx, wGet, wSet, ctxMerge, omerge,
      ctxAppendTrace]

/-- The fan-out only ever extends the stored trace. -/
theorem storedTrace_applicationsLoop (b : AgentBehaviors) (req : TaskRequest)
    (sid : String) (jms : List JobMatchD) :
    ∀ w : World, ∃ e,
      storedTrace (applicationsLoop b req sid jms w).2 sid =
        storedTrace w sid ++ e := by
  induction jms with
  | nil => intro w; exact ⟨[], by simp [applicationsLoop]⟩
  | cons jm rest ih =>
    intro w
    unfold applicationsLoop
    split
    · exact ih w
    · rw [applicationsEntry_snd]
      obtain ⟨e1, he1⟩ := storedTrace_createApplication b
        { req with input_job_id := some jm.job.job_id } sid w
      obtain ⟨e2, he2⟩ := ih (createApplication b
        { req with input_job_id := some jm.job.job_id } sid w).2
      exact ⟨e1 ++ e2, by rw [he2, he1, List.append_assoc]⟩

/-- `_full_journey` only ever extends the stored trace. -/
theorem storedTrace_fullJourney (b : AgentBehaviors) (req : TaskRequest)
    (sid : String) (w : World) :
    ∃ e, storedTrace (fullJourney b req sid w).2 sid =
      storedTrace w sid ++ e := by
  unfold fullJourney
  split
  · exact ⟨["strategy_agent"], storedTrace_analyzeProfile b req sid w⟩
  · unfold fullJourneySearch
    obtain ⟨e1, he1⟩ := storedTrace_findJobs b req sid
      (analyzeProfile b req sid w).2
    split
    · refine ⟨["strategy_agent"] ++ e1, ?_⟩
      rw [he1, storedTrace_analyzeProfile, List.append_assoc]
    · unfold fullJourneyApps
      split
      · refine ⟨["strategy_agent"] ++ e1, ?_⟩
        rw [storedTrace_freshUuid, he1, storedTrace_analyzeProfile,
          List.append_assoc]
      · obtain ⟨e2, he2⟩ := storedTrace_applicationsLoop b req sid
          ((((wGet (findJobs b req sid (analyzeProfile b req sid w).2).2
            sid).getD {}).job_matches.getD []).take 3)
          (findJobs b req sid (analyzeProfile b req sid w).2).2
        refine ⟨["strategy_agent"] ++ e1 ++ e2, ?_⟩
        rw [storedTrace_freshUuid, he2, he1, storedTrace_analyzeProfile]
        simp [List.append_assoc]

/-- Request fixture for a bare job-search run. -/
def reqFJW : TaskRequest :=
  TaskRequest.mk "find_jobs" (some "s1") (some "u1") none

/-- C4: the claim as stated is false on the code. In a `find_jobs` run on a
fresh session (no profile yet), the strategy agent is invoked first, but the
re-read of the stored context after the strategy sub-step discards the local
trace append: the stored trace ends as only
`[market_intelligence_agent]` while the agents actually invoked were
`[strategy_agent, market_intelligence_agent]` — length and order do NOT
match the invocation sequence. -/
theorem C4_counterexample :
    storedTrace (executeTask behOk reqFJW w0W).2 "s1" =
      ["market_intelligence_agent"] ∧
    (executeTask behOk reqFJW w0W).2.calls =
      ["strategy_agent", "market_intelligence_agent"] ∧
    ¬storedTrace (executeTask behOk reqFJW w0W).2 "s1" =
      (executeTask behOk reqFJW w0W).2.calls := by
  decide

/-- C4 (amended): the stored agent trace is append-only across every
workflow run — each of the four workflows only ever extends the stored
trace — and in the full_journey scenario (fresh session, all collaborators
succeed, three job matches, three successful applications) the final stored
trace is exactly `[strategy_agent, market_intelligence_agent,
personalization_agent, personalization_agent, personalization_agent]`,
matching the invocation sequence; but the general length-and-order match
with the invocation sequence fails (see the counterexample: a bare
`find_jobs` run drops the strategy entry at the context re-read). -/
theorem C4_trace_append_only (b : AgentBehaviors) (req : TaskRequest)
    (sid : String) (w : World) :
    (∃ e, storedTrace (analyzeProfile b req sid w).2 sid =
      storedTrace w sid ++ e) ∧
    (∃ e, storedTrace (findJobs b req sid w).2 sid =
      storedTrace w sid ++ e) ∧
    (∃ e, storedTrace (createApplication b req sid w).2 sid =
      storedTrace w sid ++ e) ∧
    (∃ e, storedTrace (fullJourney b req sid w).2 sid =
      storedTrace w sid ++ e) ∧
    (storedTrace (executeTask behOk reqJW w0W).2 "s1" =
      ["strategy_agent", "market_intelligence_agent",
       "personalization_agent", "personalization_agent",
       "personalization_agent"] ∧
     (executeTask behOk reqJW w0W).2.calls =
      ["strategy_agent", "market_intelligence_agent",
       "personalization_agent", "personalization_agent",
       "personalization_agent"]) :=
  ⟨⟨["strategy_agent"], storedTrace_analyzeProfile b req sid w⟩,
   storedTrace_findJobs b req sid w,
   storedTrace_createApplication b req sid w,
   storedTrace_fullJourney b req sid w,
   by decide, by decide⟩

end JobSearchMAS
